import Mathlib

/-!
Verification development for the MarketPulse trend-prediction subsystem
(`src/analysis/trend_prediction.py`, class `TrendPredictor`).

The Python module is shallowly embedded here:

* calendar dates are modelled as `ℤ` (a day number; the code parses the
  `YYYY-MM-DD` prefix of `publish_time`, discarding the time of day);
* sentiment scores and all exact float arithmetic are modelled over `ℚ`;
* the one genuinely irrational operation, `np.std` (a square root), is
  modelled over `ℝ` via `Real.sqrt`, so interval bounds live in `ℝ`;
* the Prophet library is an external collaborator: its behaviour is an
  oracle parameter (`none` = the fit raises, `some fc` = the fit succeeds
  and `predict` returns the frame `fc`), exactly the role it plays in
  `train_model`'s `try/except`;
* the pandas pipeline `groupby('ds').mean() → resample('D').mean() →
  interpolate('linear') → ffill → bfill` is translated semantically: a
  dense daily grid from the minimum to the maximum observed day, observed
  days carrying the arithmetic mean of that day's scores and unobserved
  days carrying the linear interpolation between the nearest observed
  neighbours (the series endpoints are always observed days, so the
  `ffill`/`bfill` steps never have a leading/trailing hole to fill).
-/

namespace MarketPulse

/-- A raw sentiment-tagged news record as consumed by
`TrendPredictor.prepare_data`.  `publish_day` is the calendar day parsed
from the `YYYY-MM-DD` prefix of `publish_time`; `time_of_day` is the rest
of the timestamp, which the code truncates away; `sentiment_score` is
`none` when the record lacks the `sentiment_score` key (the code then uses
`news.get('sentiment_score', 0)`). -/
structure NewsRecord where
  publish_day : ℤ
  time_of_day : ℕ
  sentiment_score : Option ℚ
deriving DecidableEq

/-- The score actually used for a record: `news.get('sentiment_score', 0)`. -/
def score (r : NewsRecord) : ℚ := r.sentiment_score.getD 0

/-- The list of calendar days of a batch of records (the `ds` column). -/
def obsDays (obs : List NewsRecord) : List ℤ := obs.map (·.publish_day)

/-- Minimum of a list of days (`0` for the empty list, which the code
never queries). -/
def minDay : List ℤ → ℤ
  | [] => 0
  | d :: ds => ds.foldl min d

/-- Maximum of a list of days (`0` for the empty list). -/
def maxDay : List ℤ → ℤ
  | [] => 0
  | d :: ds => ds.foldl max d

/-- The scores falling on calendar day `d` (in input order), with the
missing-key default `0` applied. -/
def dayScores (obs : List NewsRecord) (d : ℤ) : List ℚ :=
  (obs.filter (fun r => r.publish_day = d)).map score

/-- The `groupby('ds')['y'].mean()` aggregate for day `d`. -/
def dayMean (obs : List NewsRecord) (d : ℤ) : ℚ :=
  (dayScores obs d).sum / (dayScores obs d).length

/-- The nearest observed day at or before `d`. -/
def prevObsDay (obs : List NewsRecord) (d : ℤ) : ℤ :=
  maxDay ((obsDays obs).filter (fun e => e ≤ d))

/-- The nearest observed day at or after `d`. -/
def nextObsDay (obs : List NewsRecord) (d : ℤ) : ℤ :=
  minDay ((obsDays obs).filter (fun e => d ≤ e))

/-- The value the resampled-and-interpolated series carries on day `d`:
the daily mean on observed days, and the linear interpolation between the
nearest observed neighbours on interior gap days (pandas
`interpolate(method='linear')` on a daily-resampled frame). -/
def interpValue (obs : List NewsRecord) (d : ℤ) : ℚ :=
  if d ∈ obsDays obs then dayMean obs d
  else
    let p := prevObsDay obs d
    let q := nextObsDay obs d
    dayMean obs p + (dayMean obs q - dayMean obs p) * ((d - p : ℤ) : ℚ) / ((q - p : ℤ) : ℚ)

/-- The dense daily grid `[lo, lo+1, ..., hi]` (the index produced by
`resample('D')`). -/
def gridDays (lo hi : ℤ) : List ℤ :=
  (List.range ((hi - lo).toNat + 1)).map (fun i : ℕ => lo + (i : ℤ))

/-- `TrendPredictor.prepare_data`: empty input gives an empty frame;
otherwise the records are grouped by calendar day, averaged, resampled to
a dense daily grid and gap-filled by linear interpolation
(`ffill`/`bfill` close the edges, which are always already observed). -/
def prepare_data (obs : List NewsRecord) : List (ℤ × ℚ) :=
  if obs.isEmpty then []
  else
    (gridDays (minDay (obsDays obs)) (maxDay (obsDays obs))).map
      (fun d => (d, interpValue obs d))

/-! The baseline fallback forecaster
(`_build_baseline_model` / `_forecast_with_baseline`).

`np.polyfit(x, values, 1)` with `x = np.arange(len(values))` is the
ordinary least-squares line; it is embedded by its closed form.
`np.std` is the population standard deviation, embedded over `ℝ` via
`Real.sqrt` (the single irrational operation of the module). -/

/-- Sum of the time indices `0 + 1 + ... + (n-1)` as a rational. -/
def xSum (n : ℕ) : ℚ := ((List.range n).map (fun i : ℕ => (i : ℚ))).sum

/-- Sum of squared time indices. -/
def xxSum (n : ℕ) : ℚ := ((List.range n).map (fun i : ℕ => (i : ℚ) * i)).sum

/-- Sum of `x_i * y_i` over the series. -/
def xySum (ys : List ℚ) : ℚ :=
  ((List.range ys.length).map (fun i : ℕ => (i : ℚ) * ys.getD i 0)).sum

/-- The denominator `n * Σx² - (Σx)²` of the OLS slope. -/
def polyfitDenom (n : ℕ) : ℚ := n * xxSum n - xSum n * xSum n

/-- The slope of `np.polyfit(np.arange(n), ys, 1)` in closed form. -/
def polyfitSlope (ys : List ℚ) : ℚ :=
  ((ys.length : ℚ) * xySum ys - xSum ys.length * ys.sum) / polyfitDenom ys.length

/-- The intercept of `np.polyfit(np.arange(n), ys, 1)` in closed form. -/
def polyfitIntercept (ys : List ℚ) : ℚ :=
  (ys.sum - polyfitSlope ys * xSum ys.length) / (ys.length : ℚ)

/-- The residual vector `values - (intercept + slope * x)`. -/
def residList (ys : List ℚ) (a b : ℚ) : List ℚ :=
  (List.range ys.length).map (fun i : ℕ => ys.getD i 0 - (b + a * (i : ℚ)))

/-- The index-weighted residual sum `Σ x_i * r_i` (zero iff the second
normal equation of least squares holds). -/
def residWSum (ys : List ℚ) (a b : ℚ) : ℚ :=
  ((List.range ys.length).map
    (fun i : ℕ => (i : ℚ) * (ys.getD i 0 - (b + a * (i : ℚ))))).sum

/-- Arithmetic mean of a rational list. -/
def listMean (l : List ℚ) : ℚ := l.sum / l.length

/-- `np.std`: the population standard deviation,
`sqrt(mean((v - mean v)^2))`. -/
noncomputable def npStd (l : List ℚ) : ℝ :=
  Real.sqrt ((l.map (fun v => ((v : ℝ) - ((listMean l : ℚ) : ℝ)) ^ 2)).sum / l.length)

/-- The dictionary `_build_baseline_model` returns:
`{'intercept', 'slope', 'residual_std', 'history'}`. -/
structure BaselineModel where
  intercept : ℚ
  slope : ℚ
  residual_std : ℝ
  history : List (ℤ × ℚ)

/-- `df.sort_values('ds')`. -/
def sortByDs (df : List (ℤ × ℚ)) : List (ℤ × ℚ) :=
  List.insertionSort (fun a b => a.1 ≤ b.1) df

instance : IsTotal (ℤ × ℚ) (fun a b : ℤ × ℚ => a.1 ≤ b.1) :=
  ⟨fun a b => le_total a.1 b.1⟩

instance : IsTrans (ℤ × ℚ) (fun a b : ℤ × ℚ => a.1 ≤ b.1) :=
  ⟨fun _ _ _ h₁ h₂ => le_trans h₁ h₂⟩

/-- `TrendPredictor._build_baseline_model`: sort by date, require at least
2 rows, fit the OLS line over time indices, record the population
standard deviation of the residuals (`0.0` when fewer than 2 residuals
contribute) and keep the sorted history. -/
noncomputable def build_baseline (df : List (ℤ × ℚ)) : Option BaselineModel :=
  let dfs := sortByDs df
  if dfs.length < 2 then none
  else
    let values := dfs.map Prod.snd
    let slope := polyfitSlope values
    let intercept := polyfitIntercept values
    let resid := residList values slope intercept
    some { intercept := intercept, slope := slope,
           residual_std := if 1 < resid.length then npStd resid else 0,
           history := dfs }

/-- One row of a forecast frame: `{'ds', 'yhat', 'yhat_lower', 'yhat_upper'}`. -/
structure ForecastPoint where
  ds : ℤ
  yhat : ℚ
  yhat_lower : ℝ
  yhat_upper : ℝ

/-- The uncertainty margin `max(residual_std * 1.96, 0.1)`. -/
noncomputable def margin (m : BaselineModel) : ℝ := max (m.residual_std * 1.96) 0.1

/-- The reconstructed fit over the historical rows
(`history_forecast` in `_forecast_with_baseline`). -/
noncomputable def baselineHistoryFit (m : BaselineModel) : List ForecastPoint :=
  let history := sortByDs m.history
  (List.range history.length).map (fun i : ℕ =>
    { ds := (history.getD i (0, 0)).1,
      yhat := m.intercept + m.slope * (i : ℚ),
      yhat_lower := ((m.intercept + m.slope * (i : ℚ) : ℚ) : ℝ) - margin m,
      yhat_upper := ((m.intercept + m.slope * (i : ℚ) : ℚ) : ℝ) + margin m })

/-- The future rows of the baseline forecast (`future_rows`): day `step`
(0-indexed) is dated `last_date + step + 1` and extrapolates the line at
`x = len(history) + step`.  (`maxDay [] = 0` stands in for the
`datetime.now()` placeholder the code uses when the history is empty,
a case `build_baseline` never produces.) -/
noncomputable def baselineFuture (m : BaselineModel) (periods : ℕ) : List ForecastPoint :=
  let history := sortByDs m.history
  let last_date := maxDay (history.map Prod.fst)
  (List.range periods).map (fun step : ℕ =>
    { ds := last_date + (step : ℤ) + 1,
      yhat := m.intercept + m.slope * ((history.length : ℚ) + (step : ℚ)),
      yhat_lower :=
        ((m.intercept + m.slope * ((history.length : ℚ) + (step : ℚ)) : ℚ) : ℝ) - margin m,
      yhat_upper :=
        ((m.intercept + m.slope * ((history.length : ℚ) + (step : ℚ)) : ℚ) : ℝ) + margin m })

/-- `TrendPredictor._forecast_with_baseline`: returns the combined frame
(historical fit followed by the future rows) and, separately, the
`prediction_records` list, which contains only the future rows. -/
noncomputable def forecast_with_baseline (m : BaselineModel) (periods : ℕ) :
    List ForecastPoint × List ForecastPoint :=
  (baselineHistoryFit m ++ baselineFuture m periods, baselineFuture m periods)

/-- `DataFrame.tail(n)`: the last `n` elements (all of them if fewer). -/
def lastN {α : Type} (n : ℕ) (l : List α) : List α := l.drop (l.length - n)

/-- `TrendPredictor._calculate_trend_direction`. -/
def calculate_trend_direction (fc : List ForecastPoint) : String :=
  if fc.length < 2 then "neutral"
  else
    let recent := lastN 7 (fc.map ForecastPoint.yhat)
    if recent.length < 2 then "neutral"
    else
      let slope := polyfitSlope recent
      if slope > 0.01 then "positive"
      else if slope < -0.01 then "negative"
      else "neutral"

/-- Python `round(x)` at a half: ties go to the even integer; elsewhere it
is rounding to the nearest integer. -/
noncomputable def roundHalfEven (x : ℝ) : ℤ :=
  if Int.fract x = 1 / 2 then (if 2 ∣ ⌊x⌋ then ⌊x⌋ else ⌊x⌋ + 1) else round x

/-- Python `round(x, 3)`: round to the nearest multiple of `0.001`,
ties to even. -/
noncomputable def pyRound3 (x : ℝ) : ℝ := ((roundHalfEven (x * 1000) : ℤ) : ℝ) / 1000

/-- `TrendPredictor._calculate_confidence`: average interval width over
the last 7 rows, mapped through `max(0, min(1, 1 - avg/2))` and
`round(·, 3)`. -/
noncomputable def calculate_confidence (fc : List ForecastPoint) : ℝ :=
  if fc.length < 2 then 0
  else
    let recent := lastN 7 fc
    let avg := ((recent.map (fun p => p.yhat_upper - p.yhat_lower)).sum) / (recent.length : ℝ)
    pyRound3 (max 0 (min 1 (1 - avg / 2)))

/-! Orchestration (`train_model` / `predict_trend` /
`analyze_market_sentiment_trend`).  The Prophet library is external; its
behaviour is an oracle argument: `none` means `Prophet().fit(df)` raised
(triggering the baseline fallback) and `some fc` means the fit succeeded
and `predict` produced the frame `fc`. -/

/-- The trained model stored in `self.model`, with `self.model_type`
implied by the variant. -/
inductive FittedModel where
  | prophet (fc : List ForecastPoint)
  | baseline (m : BaselineModel)

/-- The number of distinct `ds` values (`df['ds'].nunique()`). -/
def nuniqueDs (df : List (ℤ × ℚ)) : ℕ := ((df.map Prod.fst).dedup).length

/-- Outcome of `train_model`, instrumented with whether the Prophet fit
was attempted and whether the baseline construction was attempted. -/
structure TrainTrace where
  model : Option FittedModel
  fitAttempted : Bool
  baselineAttempted : Bool

/-- `TrendPredictor.train_model`: refuse when the frame is empty or has
fewer than 2 distinct dates (before any fit is attempted); otherwise try
Prophet, and on failure fall back to the baseline model. -/
noncomputable def train_model (oracle : Option (List ForecastPoint))
    (df : List (ℤ × ℚ)) : TrainTrace :=
  if df.isEmpty ∨ nuniqueDs df < 2 then ⟨none, false, false⟩
  else
    match oracle with
    | some fc => ⟨some (.prophet fc), true, false⟩
    | none => ⟨(build_baseline df).map .baseline, true, true⟩

/-- The dictionary `predict_trend` returns on success. -/
structure PredictionOutput where
  predictions : List ForecastPoint
  trend_direction : String
  confidence : ℝ
  forecast_periods : ℕ
  model_type : String

/-- `TrendPredictor.predict_trend` with a trained model: Prophet's frame
is cut to its last `periods` rows for `prediction_records`, the baseline
reports its future rows; direction and confidence are computed on the
full frame in both cases.  `periods or self.forecast_periods` coalesces
a zero horizon to the default 30. -/
noncomputable def predict_trend : FittedModel → ℕ → PredictionOutput
  | .prophet fc, periods =>
    { predictions := lastN (if periods = 0 then 30 else periods) fc,
      trend_direction := calculate_trend_direction fc,
      confidence := calculate_confidence fc,
      forecast_periods := if periods = 0 then 30 else periods,
      model_type := "prophet" }
  | .baseline m, periods =>
    { predictions := (forecast_with_baseline m (if periods = 0 then 30 else periods)).2,
      trend_direction :=
        calculate_trend_direction (forecast_with_baseline m (if periods = 0 then 30 else periods)).1,
      confidence :=
        calculate_confidence (forecast_with_baseline m (if periods = 0 then 30 else periods)).1,
      forecast_periods := if periods = 0 then 30 else periods,
      model_type := "baseline" }

/-- The `analysis_summary` dictionary of a successful run. -/
structure AnalysisSummary where
  data_points : ℕ
  forecast_periods : ℕ
  trend_direction : String
  confidence : ℝ
  predictions : List ForecastPoint
  historical_data : List (ℤ × ℚ)
  model_type : String

/-- Result of `analyze_market_sentiment_trend`: either an error
dictionary `{'error': ..., 'data_points': ...}` (no `predictions` key) or
the success summary. -/
inductive AnalyzeResult where
  | failure (error : String) (data_points : ℕ)
  | success (summary : AnalysisSummary)

/-- Whether the result is the error dictionary. -/
def AnalyzeResult.isFailure : AnalyzeResult → Bool
  | .failure _ _ => true
  | .success _ => false

/-- A whole run, instrumented like `TrainTrace`. -/
structure RunTrace where
  result : AnalyzeResult
  fitAttempted : Bool
  baselineAttempted : Bool

/-- `TrendPredictor.analyze_market_sentiment_trend`: prepare the data,
short-circuit on an empty frame, train (possibly falling back), predict,
and assemble the summary.  The pure embedding of `predict_trend` cannot
raise, so its `try/except` error branch is unreachable. -/
noncomputable def analyzeAux (oracle : Option (List ForecastPoint))
    (obs : List NewsRecord) (periods : ℕ) : RunTrace :=
  let df := prepare_data obs
  if df.isEmpty then
    ⟨.failure "数据不足，无法进行趋势预测" 0, false, false⟩
  else
    let t := train_model oracle df
    match t.model with
    | none => ⟨.failure "模型训练失败" df.length, t.fitAttempted, t.baselineAttempted⟩
    | some m =>
      let out := predict_trend m periods
      ⟨.success
        { data_points := df.length, forecast_periods := periods,
          trend_direction := out.trend_direction, confidence := out.confidence,
          predictions := out.predictions, historical_data := df,
          model_type := out.model_type },
        t.fitAttempted, t.baselineAttempted⟩

/-- The public entry point, dropping the instrumentation. -/
noncomputable def analyze_market_sentiment_trend (oracle : Option (List ForecastPoint))
    (obs : List NewsRecord) (periods : ℕ) : AnalyzeResult :=
  (analyzeAux oracle obs periods).result

/-- The `predictions` field of a result, when present. -/
def resultPredictions : AnalyzeResult → Option (List ForecastPoint)
  | .failure _ _ => none
  | .success s => some s.predictions

/-! Persistence (`save_prediction_results`), modelled on string-keyed
association lists with Python-dict update semantics. -/

/-- Python `d[k] = v`: replace in place when the key exists, append
otherwise. -/
def dictSet {α : Type} (d : List (String × α)) (k : String) (v : α) :
    List (String × α) :=
  if (d.map Prod.fst).contains k then
    d.map (fun p => if p.1 = k then (k, v) else p)
  else d ++ [(k, v)]

/-- `TrendPredictor.save_prediction_results`: stamps `generated_at` on
the in-memory results dictionary and then writes the JSON sidecar.  The
write happens after the mutation and does not touch the dictionary, so
the returned in-memory state is the same whether or not the write
succeeds (`writeOk` models the collaborator I/O outcome). -/
def save_prediction_results {α : Type} (results : List (String × α))
    (timestamp : α) (_writeOk : Bool) : List (String × α) :=
  dictSet results "generated_at" timestamp

/-- The degenerate one-row baseline model used to witness claim C3. -/
noncomputable def c3model : BaselineModel := ⟨0, 0, 0, [(0, 0)]⟩

/-- The first reconstructed fit point of `c3model`: `(0, 0, -0.1, 0.1)`. -/
noncomputable def c3point : ForecastPoint :=
  ⟨0, 0, 0 - max ((0 : ℝ) * 1.96) 0.1, 0 + max ((0 : ℝ) * 1.96) 0.1⟩

/-- The seven synthetic forecast points of slope `+0.05` from the spec's
trend-direction test, witnessing claim C6. -/
noncomputable def c6fc : List ForecastPoint :=
  [⟨0, 0, 0, 0⟩, ⟨1, 1/20, 0, 0⟩, ⟨2, 2/20, 0, 0⟩, ⟨3, 3/20, 0, 0⟩,
   ⟨4, 4/20, 0, 0⟩, ⟨5, 5/20, 0, 0⟩, ⟨6, 6/20, 0, 0⟩]

/-- The two-row forecast frame with interval widths `1/3`, used for claim
C7: the clamped confidence is `5/6`, which the code then rounds to 3
decimals. -/
noncomputable def c7fc : List ForecastPoint :=
  [⟨0, 0, 0, 1/3⟩, ⟨1, 0, 0, 1/3⟩]

/-! Claim C8 artifacts: a concrete two-day baseline run. -/

/-- Two same-score observations on consecutive days. -/
def c8obs : List NewsRecord := [⟨1, 0, some 3⟩, ⟨2, 0, some 3⟩]

/-- The baseline model the code builds from `c8obs`. -/
noncomputable def c8model : BaselineModel := ⟨3, 0, 0, [(1, 3), (2, 3)]⟩

/-! Basic lemmas about `minDay`/`maxDay`. -/

lemma foldl_min_mem (l : List ℤ) : ∀ a : ℤ, l.foldl min a ∈ a :: l := by
  induction l with
  | nil => intro a; simp
  | cons b t ih =>
    intro a
    have h := ih (min a b)
    simp only [List.foldl_cons]
    rcases List.mem_cons.mp h with h | h
    · rw [h]
      rcases min_cases a b with ⟨he, _⟩ | ⟨he, _⟩
      · rw [he]; exact List.mem_cons_self _ _
      · rw [he]; exact List.mem_cons_of_mem _ (List.mem_cons_self _ _)
    · exact List.mem_cons_of_mem _ (List.mem_cons_of_mem _ h)

lemma foldl_min_le (l : List ℤ) : ∀ a : ℤ, ∀ x ∈ a :: l, l.foldl min a ≤ x := by
  induction l with
  | nil => intro a x hx; simp at hx; simp [hx]
  | cons b t ih =>
    intro a x hx
    simp only [List.foldl_cons]
    rcases List.mem_cons.mp hx with rfl | hx
    · exact le_trans (ih (min x b) (min x b) (List.mem_cons_self _ _)) (min_le_left _ _)
    · rcases List.mem_cons.mp hx with rfl | hx
      · exact le_trans (ih (min a x) (min a x) (List.mem_cons_self _ _)) (min_le_right _ _)
      · exact ih (min a b) x (List.mem_cons_of_mem _ hx)

lemma foldl_max_mem (l : List ℤ) : ∀ a : ℤ, l.foldl max a ∈ a :: l := by
  induction l with
  | nil => intro a; simp
  | cons b t ih =>
    intro a
    have h := ih (max a b)
    simp only [List.foldl_cons]
    rcases List.mem_cons.mp h with h | h
    · rw [h]
      rcases max_cases a b with ⟨he, _⟩ | ⟨he, _⟩
      · rw [he]; exact List.mem_cons_self _ _
      · rw [he]; exact List.mem_cons_of_mem _ (List.mem_cons_self _ _)
    · exact List.mem_cons_of_mem _ (List.mem_cons_of_mem _ h)

lemma foldl_le_max (l : List ℤ) : ∀ a : ℤ, ∀ x ∈ a :: l, x ≤ l.foldl max a := by
  induction l with
  | nil => intro a x hx; simp at hx; simp [hx]
  | cons b t ih =>
    intro a x hx
    simp only [List.foldl_cons]
    rcases List.mem_cons.mp hx with rfl | hx
    · exact le_trans (le_max_left x b) (ih (max x b) (max x b) (List.mem_cons_self _ _))
    · rcases List.mem_cons.mp hx with rfl | hx
      · exact le_trans (le_max_right a x) (ih (max a x) (max a x) (List.mem_cons_self _ _))
      · exact ih (max a b) x (List.mem_cons_of_mem _ hx)

lemma minDay_mem {l : List ℤ} (h : l ≠ []) : minDay l ∈ l := by
  cases l with
  | nil => exact absurd rfl h
  | cons a t => exact foldl_min_mem t a

lemma minDay_le {l : List ℤ} : ∀ x ∈ l, minDay l ≤ x := by
  cases l with
  | nil => intro x hx; simp at hx
  | cons a t => exact foldl_min_le t a

lemma maxDay_mem {l : List ℤ} (h : l ≠ []) : maxDay l ∈ l := by
  cases l with
  | nil => exact absurd rfl h
  | cons a t => exact foldl_max_mem t a

lemma le_maxDay {l : List ℤ} : ∀ x ∈ l, x ≤ maxDay l := by
  cases l with
  | nil => intro x hx; simp at hx
  | cons a t => exact foldl_le_max t a

lemma minDay_le_maxDay {l : List ℤ} (h : l ≠ []) : minDay l ≤ maxDay l :=
  le_maxDay _ (minDay_mem h)

lemma minDay_eq_of_perm {l₁ l₂ : List ℤ} (h : l₁.Perm l₂) : minDay l₁ = minDay l₂ := by
  cases l₁ with
  | nil => rw [List.nil_perm.mp h]
  | cons a t =>
    cases l₂ with
    | nil => exact absurd (List.perm_nil.mp h) (by simp)
    | cons b s =>
      apply le_antisymm
      · exact minDay_le _ (h.symm.mem_iff.mp (minDay_mem (by simp)))
      · exact minDay_le _ (h.mem_iff.mp (minDay_mem (by simp)))

lemma maxDay_eq_of_perm {l₁ l₂ : List ℤ} (h : l₁.Perm l₂) : maxDay l₁ = maxDay l₂ := by
  cases l₁ with
  | nil => rw [List.nil_perm.mp h]
  | cons a t =>
    cases l₂ with
    | nil => exact absurd (List.perm_nil.mp h) (by simp)
    | cons b s =>
      apply le_antisymm
      · exact le_maxDay _ (h.mem_iff.mp (maxDay_mem (by simp)))
      · exact le_maxDay _ (h.symm.mem_iff.mp (maxDay_mem (by simp)))

/-! Basic lemmas about the daily grid. -/

lemma mem_gridDays {lo hi d : ℤ} (h : lo ≤ hi) :
    d ∈ gridDays lo hi ↔ lo ≤ d ∧ d ≤ hi := by
  simp only [gridDays, List.mem_map, List.mem_range]
  constructor
  · rintro ⟨i, hilt, rfl⟩; omega
  · intro hd; exact ⟨(d - lo).toNat, by omega, by omega⟩

lemma gridDays_pairwise (lo hi : ℤ) : (gridDays lo hi).Pairwise (· < ·) := by
  unfold gridDays
  refine List.Pairwise.map _ (fun a b hab => ?_) (List.pairwise_lt_range _)
  omega

lemma gridDays_nodup (lo hi : ℤ) : (gridDays lo hi).Nodup :=
  (gridDays_pairwise lo hi).imp ne_of_lt

lemma gridDays_ne_nil (lo hi : ℤ) : gridDays lo hi ≠ [] := by
  have hlen : (gridDays lo hi).length = (hi - lo).toNat + 1 := by
    simp [gridDays]
  intro hnil
  rw [hnil] at hlen
  simp at hlen

lemma prepare_data_days {obs : List NewsRecord} (h : obs ≠ []) :
    (prepare_data obs).map Prod.fst =
      gridDays (minDay (obsDays obs)) (maxDay (obsDays obs)) := by
  rw [prepare_data, if_neg (by simpa using h), List.map_map]
  exact List.map_id _

lemma obsDays_ne_nil {obs : List NewsRecord} (h : obs ≠ []) : obsDays obs ≠ [] := by
  cases obs with
  | nil => exact absurd rfl h
  | cons r t => simp [obsDays]

/-! Congruence: `prepare_data` only depends on the multiset of
`(publish_day, score)` data, which gives permutation invariance and
time-of-day irrelevance in one stroke. -/

lemma dayMean_eq_of_perm {o₁ o₂ : List NewsRecord}
    (h : ∀ d, (dayScores o₁ d).Perm (dayScores o₂ d)) (d : ℤ) :
    dayMean o₁ d = dayMean o₂ d := by
  rw [dayMean, dayMean, (h d).sum_eq, (h d).length_eq]

lemma interpValue_eq_of_perm {o₁ o₂ : List NewsRecord}
    (hdays : (obsDays o₁).Perm (obsDays o₂))
    (hsc : ∀ d, (dayScores o₁ d).Perm (dayScores o₂ d)) (d : ℤ) :
    interpValue o₁ d = interpValue o₂ d := by
  have hmem : d ∈ obsDays o₁ ↔ d ∈ obsDays o₂ := hdays.mem_iff
  have hprev : prevObsDay o₁ d = prevObsDay o₂ d :=
    maxDay_eq_of_perm (hdays.filter _)
  have hnext : nextObsDay o₁ d = nextObsDay o₂ d :=
    minDay_eq_of_perm (hdays.filter _)
  by_cases hd : d ∈ obsDays o₁
  · rw [interpValue, interpValue, if_pos hd, if_pos (hmem.mp hd),
      dayMean_eq_of_perm hsc]
  · rw [interpValue, interpValue, if_neg hd, if_neg (fun hc => hd (hmem.mpr hc))]
    simp only [prevObsDay, nextObsDay] at hprev hnext
    simp only [prevObsDay, nextObsDay, hprev, hnext, dayMean_eq_of_perm hsc]

lemma prepare_data_eq_of_perm {o₁ o₂ : List NewsRecord}
    (hdays : (obsDays o₁).Perm (obsDays o₂))
    (hsc : ∀ d, (dayScores o₁ d).Perm (dayScores o₂ d)) :
    prepare_data o₁ = prepare_data o₂ := by
  have hlen : o₁.length = o₂.length := by
    have h₁ : (obsDays o₁).length = o₁.length := by simp [obsDays]
    have h₂ : (obsDays o₂).length = o₂.length := by simp [obsDays]
    rw [← h₁, ← h₂, hdays.length_eq]
  by_cases he : o₁.isEmpty
  · have he₂ : o₂.isEmpty := by
      rw [List.isEmpty_iff_length_eq_zero] at *; omega
    rw [prepare_data, prepare_data, if_pos he, if_pos he₂]
  · have he₂ : ¬ o₂.isEmpty := by
      rw [List.isEmpty_iff_length_eq_zero] at *; omega
    rw [prepare_data, prepare_data, if_neg he, if_neg he₂,
      minDay_eq_of_perm hdays, maxDay_eq_of_perm hdays]
    exact List.map_congr_left (fun d _ => by rw [interpValue_eq_of_perm hdays hsc])

lemma obsDays_perm {o₁ o₂ : List NewsRecord} (h : o₁.Perm o₂) :
    (obsDays o₁).Perm (obsDays o₂) := h.map _

lemma dayScores_perm {o₁ o₂ : List NewsRecord} (h : o₁.Perm o₂) (d : ℤ) :
    (dayScores o₁ d).Perm (dayScores o₂ d) := (h.filter _).map _

lemma mem_prepare_data_of_observed {obs : List NewsRecord} {d : ℤ}
    (hd : d ∈ obsDays obs) :
    (d, (dayScores obs d).sum / ((dayScores obs d).length : ℚ)) ∈ prepare_data obs := by
  have hne : obs ≠ [] := by
    intro h; rw [h] at hd; simp [obsDays] at hd
  have hOne : obsDays obs ≠ [] := obsDays_ne_nil hne
  have hlo : minDay (obsDays obs) ≤ d := minDay_le _ hd
  have hhi : d ≤ maxDay (obsDays obs) := le_maxDay _ hd
  rw [prepare_data, if_neg (by simpa using hne)]
  have hmem : d ∈ gridDays (minDay (obsDays obs)) (maxDay (obsDays obs)) :=
    (mem_gridDays (le_trans hlo hhi)).mpr ⟨hlo, hhi⟩
  refine List.mem_map.mpr ⟨d, hmem, ?_⟩
  rw [interpValue, if_pos hd, dayMean]

/-- Claim C4: for every non-empty input, the daily series produced by
`prepare_data` is a dense daily grid: it is sorted strictly ascending, a
day `d` appears exactly once when `min_date ≤ d ≤ max_date` and never
otherwise; the series endpoints are observed days (so there are no edge
gaps for `ffill`/`bfill` to close), and every unobserved interior day
carries the linear interpolation between its nearest observed neighbours:
`(q - p) * value(d) = (q - d) * mean(p) + (d - p) * mean(q)` where `p`/`q`
are the nearest observed days below/above `d`. -/
theorem dense_grid_c4 (obs : List NewsRecord) (h : obs ≠ []) :
    ((prepare_data obs).map Prod.fst).Pairwise (· < ·) ∧
    (∀ d : ℤ,
      ((prepare_data obs).map Prod.fst).count d =
        if minDay (obsDays obs) ≤ d ∧ d ≤ maxDay (obsDays obs) then 1 else 0) ∧
    minDay (obsDays obs) ∈ obsDays obs ∧ maxDay (obsDays obs) ∈ obsDays obs ∧
    (∀ d : ℤ, minDay (obsDays obs) ≤ d → d ≤ maxDay (obsDays obs) →
      d ∉ obsDays obs →
      prevObsDay obs d ∈ obsDays obs ∧ nextObsDay obs d ∈ obsDays obs ∧
      prevObsDay obs d < d ∧ d < nextObsDay obs d ∧
      (∀ e ∈ obsDays obs, e ≤ prevObsDay obs d ∨ nextObsDay obs d ≤ e) ∧
      ((nextObsDay obs d - prevObsDay obs d : ℤ) : ℚ) * interpValue obs d =
        ((nextObsDay obs d - d : ℤ) : ℚ) * dayMean obs (prevObsDay obs d) +
          ((d - prevObsDay obs d : ℤ) : ℚ) * dayMean obs (nextObsDay obs d)) ∧
    (∀ d : ℤ, (d, interpValue obs d) ∈ prepare_data obs ↔
      minDay (obsDays obs) ≤ d ∧ d ≤ maxDay (obsDays obs)) := by
  have hOne : obsDays obs ≠ [] := obsDays_ne_nil h
  have hlohi : minDay (obsDays obs) ≤ maxDay (obsDays obs) := minDay_le_maxDay hOne
  have hdays := prepare_data_days h
  refine ⟨?_, ?_, minDay_mem hOne, maxDay_mem hOne, ?_, ?_⟩
  · rw [hdays]; exact gridDays_pairwise _ _
  · intro d
    rw [hdays]
    by_cases hd : minDay (obsDays obs) ≤ d ∧ d ≤ maxDay (obsDays obs)
    · rw [if_pos hd]
      exact List.count_eq_one_of_mem (gridDays_nodup _ _) ((mem_gridDays hlohi).mpr hd)
    · rw [if_neg hd]
      exact List.count_eq_zero.mpr (fun hc => hd ((mem_gridDays hlohi).mp hc))
  · intro d hlo hhi hd
    have hfp : minDay (obsDays obs) ∈ (obsDays obs).filter (fun e => e ≤ d) :=
      List.mem_filter.mpr ⟨minDay_mem hOne, by simpa using hlo⟩
    have hfq : maxDay (obsDays obs) ∈ (obsDays obs).filter (fun e => d ≤ e) :=
      List.mem_filter.mpr ⟨maxDay_mem hOne, by simpa using hhi⟩
    have hpfil : prevObsDay obs d ∈ (obsDays obs).filter (fun e => e ≤ d) :=
      maxDay_mem (List.ne_nil_of_mem hfp)
    have hqfil : nextObsDay obs d ∈ (obsDays obs).filter (fun e => d ≤ e) :=
      minDay_mem (List.ne_nil_of_mem hfq)
    obtain ⟨hpO, hpd'⟩ := List.mem_filter.mp hpfil
    obtain ⟨hqO, hqd'⟩ := List.mem_filter.mp hqfil
    have hpd : prevObsDay obs d ≤ d := by simpa using hpd'
    have hqd : d ≤ nextObsDay obs d := by simpa using hqd'
    have hplt : prevObsDay obs d < d :=
      lt_of_le_of_ne hpd (fun heq => hd (heq ▸ hpO))
    have hqlt : d < nextObsDay obs d :=
      lt_of_le_of_ne hqd (fun heq => hd (heq ▸ hqO))
    refine ⟨hpO, hqO, hplt, hqlt, ?_, ?_⟩
    · intro e he
      by_cases hed : e ≤ d
      · exact Or.inl (le_maxDay _ (List.mem_filter.mpr ⟨he, by simpa using hed⟩))
      · exact Or.inr (minDay_le _ (List.mem_filter.mpr ⟨he, by simpa using le_of_not_le hed⟩))
    · rw [interpValue, if_neg hd]
      simp only
      have hqp : ((nextObsDay obs d : ℚ)) - ((prevObsDay obs d : ℚ)) ≠ 0 := by
        rw [sub_ne_zero]
        exact_mod_cast ne_of_gt (lt_trans hplt hqlt)
      push_cast
      field_simp
      ring
  · intro d
    constructor
    · intro hmem
      rw [prepare_data, if_neg (by simpa using h)] at hmem
      obtain ⟨e, he, heq⟩ := List.mem_map.mp hmem
      have : e = d := congrArg Prod.fst heq
      exact (mem_gridDays hlohi).mp (this ▸ he)
    · intro hd
      rw [prepare_data, if_neg (by simpa using h)]
      exact List.mem_map.mpr ⟨d, (mem_gridDays hlohi).mpr hd, rfl⟩

/-- Claim C4 witness: a concrete two-day corpus with a one-day interior
gap, instantiating the dense-grid theorem and evaluating the interpolated
series. -/
theorem dense_grid_c4_witness :
    ([⟨0, 7, some 1⟩, ⟨2, 3, some 3⟩] : List NewsRecord) ≠ [] ∧
    ((prepare_data [⟨0, 7, some 1⟩, ⟨2, 3, some 3⟩]).map Prod.fst).Pairwise (· < ·) ∧
    prepare_data [⟨0, 7, some 1⟩, ⟨2, 3, some 3⟩] = [(0, 1), (1, 2), (2, 3)] :=
  ⟨by simp, (dense_grid_c4 [⟨0, 7, some 1⟩, ⟨2, 3, some 3⟩] (by simp)).1, by
    simp only [prepare_data, obsDays, minDay, maxDay, List.map]
    norm_num [gridDays, List.range_succ, interpValue, obsDays, dayMean,
      dayScores, prevObsDay, nextObsDay, minDay, maxDay, score, List.filter]⟩

/-- Claim C5: the aggregated value for an observed calendar date is the
arithmetic mean of the scores falling on that date; the aggregated series
is invariant under permutation of the input observation sequence; and the
time-of-day component of a record is discarded (changing it arbitrarily
does not change the series). -/
theorem aggregation_mean_c5 :
    (∀ (obs : List NewsRecord) (d : ℤ), d ∈ obsDays obs →
      (d, (dayScores obs d).sum / ((dayScores obs d).length : ℚ)) ∈ prepare_data obs) ∧
    (∀ obs₁ obs₂ : List NewsRecord, obs₁.Perm obs₂ →
      prepare_data obs₁ = prepare_data obs₂) ∧
    (∀ (obs : List NewsRecord) (f : NewsRecord → ℕ),
      prepare_data (obs.map (fun r =>
        { publish_day := r.publish_day, time_of_day := f r,
          sentiment_score := r.sentiment_score })) = prepare_data obs) := by
  refine ⟨fun obs d hd => mem_prepare_data_of_observed hd,
    fun o₁ o₂ h => prepare_data_eq_of_perm (obsDays_perm h) (dayScores_perm h),
    fun obs f => ?_⟩
  have hsc : ∀ d, dayScores (obs.map (fun r =>
      { publish_day := r.publish_day, time_of_day := f r,
        sentiment_score := r.sentiment_score } : NewsRecord → NewsRecord)) d =
      dayScores obs d := by
    intro d
    induction obs with
    | nil => rfl
    | cons r t ih =>
      by_cases hd : r.publish_day = d <;>
        simp only [dayScores, List.map_cons, List.filter_cons, hd] at ih ⊢ <;>
        simp [score, ih]
  have hdays : obsDays (obs.map (fun r =>
      { publish_day := r.publish_day, time_of_day := f r,
        sentiment_score := r.sentiment_score } : NewsRecord → NewsRecord)) = obsDays obs := by
    simp [obsDays, List.map_map, Function.comp]
  refine prepare_data_eq_of_perm ?_ ?_
  · rw [hdays]
  · intro d; rw [hsc d]

/-- Claim C5 witness: two same-day records, mean `(1+3)/2 = 2`, swapped
input order, instantiating the aggregation theorem. -/
theorem aggregation_mean_c5_witness :
    (5 : ℤ) ∈ obsDays [⟨5, 1, some 1⟩, ⟨5, 2, some 3⟩] ∧
    ((5 : ℤ), ((dayScores [⟨5, 1, some 1⟩, ⟨5, 2, some 3⟩] 5).sum /
        ((dayScores [⟨5, 1, some 1⟩, ⟨5, 2, some 3⟩] 5).length : ℚ))) ∈
      prepare_data [⟨5, 1, some 1⟩, ⟨5, 2, some 3⟩] ∧
    prepare_data [⟨5, 1, some 1⟩, ⟨5, 2, some 3⟩] =
      prepare_data [⟨5, 2, some 3⟩, ⟨5, 1, some 1⟩] :=
  ⟨by simp [obsDays], aggregation_mean_c5.1 _ 5 (by simp [obsDays]),
    aggregation_mean_c5.2.1 _ _ (List.Perm.swap _ _ _)⟩

/-- Claim C10: a record lacking the `sentiment_score` key is treated as
score `0`: replacing it by the same record with an explicit score `0`
changes nothing, its day's score list gains a `0` entry (the record is
included, not dropped), and consequently the day's aggregated mean is
pulled towards `0` (its absolute value cannot increase). -/
theorem missing_score_c10 :
    (∀ (obs : List NewsRecord) (r : NewsRecord), r.sentiment_score = none →
      prepare_data (r :: obs) =
        prepare_data
          (NewsRecord.mk r.publish_day r.time_of_day (some 0) :: obs)) ∧
    (∀ (obs : List NewsRecord) (r : NewsRecord), r.sentiment_score = none →
      dayScores (r :: obs) r.publish_day = 0 :: dayScores obs r.publish_day) ∧
    (∀ (obs : List NewsRecord) (r : NewsRecord), r.sentiment_score = none →
      dayScores obs r.publish_day ≠ [] →
      |dayMean (r :: obs) r.publish_day| ≤ |dayMean obs r.publish_day|) := by
  have hcons : ∀ (obs : List NewsRecord) (r : NewsRecord) (d : ℤ),
      r.sentiment_score = none →
      dayScores (r :: obs) d =
        if r.publish_day = d then 0 :: dayScores obs d else dayScores obs d := by
    intro obs r d hnone
    by_cases hd : r.publish_day = d <;>
      simp [dayScores, List.filter_cons, hd, score, hnone]
  refine ⟨?_, ?_, ?_⟩
  · intro obs r hnone
    refine prepare_data_eq_of_perm ?_ ?_
    · simp [obsDays]
    · intro d
      rw [hcons obs r d hnone]
      by_cases hd : r.publish_day = d <;>
        simp [dayScores, List.filter_cons, hd, score]
  · intro obs r hnone
    rw [hcons obs r r.publish_day hnone, if_pos rfl]
  · intro obs r hnone hne
    rw [dayMean, dayMean, hcons obs r r.publish_day hnone, if_pos rfl]
    have hk : 0 < ((dayScores obs r.publish_day).length : ℚ) := by
      have := List.length_pos.mpr hne
      exact_mod_cast this
    simp only [List.sum_cons, List.length_cons, zero_add]
    rw [abs_div, abs_div, Nat.cast_add, Nat.cast_one,
      abs_of_pos (by linarith : (0:ℚ) < (dayScores obs r.publish_day).length + 1),
      abs_of_pos hk]
    gcongr
    · linarith

/-- Claim C10 witness: a scoreless record on day 5 next to a score-2
record on day 5: the aggregate becomes `(0+2)/2 = 1`, instantiating all
three parts of the missing-score theorem. -/
theorem missing_score_c10_witness :
    prepare_data [⟨5, 1, none⟩, ⟨5, 0, some 2⟩] =
      prepare_data [⟨5, 1, some 0⟩, ⟨5, 0, some 2⟩] ∧
    dayScores [⟨5, 1, none⟩, ⟨5, 0, some 2⟩] 5 =
      0 :: dayScores [⟨5, 0, some 2⟩] 5 ∧
    |dayMean [⟨5, 1, none⟩, ⟨5, 0, some 2⟩] 5| ≤ |dayMean [⟨5, 0, some 2⟩] 5| ∧
    prepare_data [⟨5, 1, none⟩, ⟨5, 0, some 2⟩] = [(5, 1)] :=
  ⟨missing_score_c10.1 [⟨5, 0, some 2⟩] ⟨5, 1, none⟩ rfl,
    missing_score_c10.2.1 [⟨5, 0, some 2⟩] ⟨5, 1, none⟩ rfl,
    missing_score_c10.2.2 [⟨5, 0, some 2⟩] ⟨5, 1, none⟩ rfl
      (by simp [dayScores, List.filter]),
    by
      simp only [prepare_data, obsDays, minDay, maxDay, List.map]
      norm_num [gridDays, List.range_succ, interpValue, obsDays, dayMean,
        dayScores, prevObsDay, nextObsDay, minDay, maxDay, score, List.filter]⟩

/-! Least-squares facts about `polyfitSlope` / `polyfitIntercept`. -/

lemma range_map_sum (f : ℕ → ℚ) (n : ℕ) :
    ((List.range n).map f).sum = ∑ i in Finset.range n, f i := by
  induction n with
  | zero => simp
  | succ k ih =>
    rw [List.range_succ, List.map_append, List.sum_append, Finset.sum_range_succ, ih]
    simp

lemma sum_eq_sum_getD (l : List ℚ) :
    l.sum = ∑ i in Finset.range l.length, l.getD i 0 := by
  induction l with
  | nil => simp
  | cons x t ih =>
    rw [List.sum_cons, List.length_cons, Finset.sum_range_succ']
    simp [ih]
    ring

lemma xSum_eq (n : ℕ) : xSum n = n * (n - 1) / 2 := by
  induction n with
  | zero => simp [xSum]
  | succ k ih =>
    rw [xSum, List.range_succ, List.map_append, List.sum_append] at *
    rw [ih]
    push_cast
    simp
    ring

lemma xxSum_eq (n : ℕ) : xxSum n = n * (n - 1) * (2 * n - 1) / 6 := by
  induction n with
  | zero => simp [xxSum]
  | succ k ih =>
    rw [xxSum, List.range_succ, List.map_append, List.sum_append] at *
    rw [ih]
    push_cast
    simp
    ring

lemma polyfitDenom_eq (n : ℕ) :
    polyfitDenom n = n ^ 2 * (n - 1) * (n + 1) / 12 := by
  rw [polyfitDenom, xSum_eq, xxSum_eq]
  ring

lemma polyfitDenom_pos {n : ℕ} (h : 2 ≤ n) : 0 < polyfitDenom n := by
  have hn : (2 : ℚ) ≤ (n : ℚ) := by exact_mod_cast h
  rw [polyfitDenom_eq]
  have h2 : 0 < (n : ℚ) - 1 := by linarith
  have h3 : 0 < (n : ℚ) + 1 := by linarith
  have h4 : 0 < (n : ℚ) ^ 2 := by nlinarith
  exact div_pos (mul_pos (mul_pos h4 h2) h3) (by norm_num)

lemma residList_length (ys : List ℚ) (a b : ℚ) :
    (residList ys a b).length = ys.length := by
  simp [residList]

lemma residList_sum (ys : List ℚ) (a b : ℚ) :
    (residList ys a b).sum = ys.sum - (ys.length : ℚ) * b - a * xSum ys.length := by
  rw [residList, range_map_sum, sum_eq_sum_getD, xSum, range_map_sum]
  rw [Finset.sum_sub_distrib, Finset.sum_add_distrib, Finset.sum_const,
    Finset.card_range, ← Finset.mul_sum, nsmul_eq_mul]
  ring

lemma residWSum_eq (ys : List ℚ) (a b : ℚ) :
    residWSum ys a b = xySum ys - b * xSum ys.length - a * xxSum ys.length := by
  rw [residWSum, xySum, xSum, xxSum, range_map_sum, range_map_sum, range_map_sum,
    range_map_sum]
  rw [Finset.mul_sum, Finset.mul_sum, ← Finset.sum_sub_distrib, ← Finset.sum_sub_distrib]
  exact Finset.sum_congr rfl (fun i _ => by ring)

/-- `polyfitSlope`/`polyfitIntercept` satisfy the two normal equations of
least squares — `Σ rᵢ = 0` and `Σ xᵢ·rᵢ = 0` — which characterise the
ordinary least-squares line (the denominator is nonzero for `n ≥ 2`). -/
lemma polyfit_normal_equations (ys : List ℚ) (h : 2 ≤ ys.length) :
    (residList ys (polyfitSlope ys) (polyfitIntercept ys)).sum = 0 ∧
    residWSum ys (polyfitSlope ys) (polyfitIntercept ys) = 0 := by
  have hn : ((ys.length : ℚ)) ≠ 0 := by
    have : (2 : ℚ) ≤ (ys.length : ℚ) := by exact_mod_cast h
    linarith
  have hD : polyfitDenom ys.length ≠ 0 := ne_of_gt (polyfitDenom_pos h)
  constructor
  · rw [residList_sum, polyfitIntercept]
    field_simp
  · rw [residWSum_eq, polyfitIntercept, polyfitSlope, polyfitDenom] at *
    field_simp
    ring

lemma sortByDs_perm (df : List (ℤ × ℚ)) : (sortByDs df).Perm df :=
  List.perm_insertionSort _ _

lemma sortByDs_length (df : List (ℤ × ℚ)) : (sortByDs df).length = df.length :=
  (sortByDs_perm df).length_eq

lemma sortByDs_sorted (df : List (ℤ × ℚ)) :
    List.Sorted (fun a b : ℤ × ℚ => a.1 ≤ b.1) (sortByDs df) :=
  List.sorted_insertionSort _ _

lemma sortByDs_idem (df : List (ℤ × ℚ)) : sortByDs (sortByDs df) = sortByDs df :=
  List.Sorted.insertionSort_eq (sortByDs_sorted df)

/-- Claim C2: for a historical series of `n ≥ 2` rows, the baseline model
is built; its slope and intercept satisfy the least-squares normal
equations over time indices `0..n-1` (so they are the OLS fit), its
`residual_std` is the population standard deviation of
`actual - fitted`, and future day `k` (0-indexed here; the claim's
1-indexed `k` is this `k + 1`) is dated `last_date + (k+1)` with point
estimate `intercept + slope * (n + k)` and bounds `point ∓ margin` where
`margin = max(1.96 * residual_std, 0.1)`. -/
theorem baseline_ols_forecast_c2 (df : List (ℤ × ℚ)) (h : 2 ≤ df.length) :
    ∃ m : BaselineModel, build_baseline df = some m ∧
      m.history = sortByDs df ∧
      (residList ((sortByDs df).map Prod.snd) m.slope m.intercept).sum = 0 ∧
      residWSum ((sortByDs df).map Prod.snd) m.slope m.intercept = 0 ∧
      m.residual_std =
        npStd (residList ((sortByDs df).map Prod.snd) m.slope m.intercept) ∧
      (∀ periods k : ℕ, k < periods →
        (forecast_with_baseline m periods).2.get? k =
          some { ds := maxDay ((sortByDs df).map Prod.fst) + (k : ℤ) + 1,
                 yhat := m.intercept + m.slope * ((df.length : ℚ) + (k : ℚ)),
                 yhat_lower :=
                   ((m.intercept + m.slope * ((df.length : ℚ) + (k : ℚ)) : ℚ) : ℝ) -
                     max (m.residual_std * 1.96) 0.1,
                 yhat_upper :=
                   ((m.intercept + m.slope * ((df.length : ℚ) + (k : ℚ)) : ℚ) : ℝ) +
                     max (m.residual_std * 1.96) 0.1 }) := by
  have hsl : (sortByDs df).length = df.length := sortByDs_length df
  have hnot : ¬ (sortByDs df).length < 2 := by omega
  have hvlen : ((sortByDs df).map Prod.snd).length = df.length := by
    rw [List.length_map, hsl]
  have hrlen : 1 < (residList ((sortByDs df).map Prod.snd)
      (polyfitSlope ((sortByDs df).map Prod.snd))
      (polyfitIntercept ((sortByDs df).map Prod.snd))).length := by
    rw [residList_length, hvlen]; omega
  refine ⟨{ intercept := polyfitIntercept ((sortByDs df).map Prod.snd),
            slope := polyfitSlope ((sortByDs df).map Prod.snd),
            residual_std := npStd (residList ((sortByDs df).map Prod.snd)
              (polyfitSlope ((sortByDs df).map Prod.snd))
              (polyfitIntercept ((sortByDs df).map Prod.snd))),
            history := sortByDs df }, ?_, rfl, ?_, ?_, rfl, ?_⟩
  · rw [build_baseline]
    simp only [if_neg hnot, hrlen, if_pos]
  · exact (polyfit_normal_equations _ (by omega)).1
  · exact (polyfit_normal_equations _ (by omega)).2
  · intro periods k hk
    show (baselineFuture _ periods).get? k = _
    rw [baselineFuture]
    simp only [sortByDs_idem]
    rw [List.get?_eq_getElem?, List.getElem?_map, List.getElem?_range hk]
    simp only [Option.map_some', margin, hsl]

/-- Claim C2 witness: the two-point series `[(0,0),(1,0)]`, instantiating
the baseline-OLS theorem and projecting the build equation and the first
normal equation. -/
theorem baseline_ols_forecast_c2_witness :
    ∃ m : BaselineModel, build_baseline [((0 : ℤ), (0 : ℚ)), (1, 0)] = some m ∧
      (residList ((sortByDs [((0 : ℤ), (0 : ℚ)), (1, 0)]).map Prod.snd)
        m.slope m.intercept).sum = 0 := by
  obtain ⟨m, h1, h2, h3, h4⟩ :=
    baseline_ols_forecast_c2 [((0 : ℤ), (0 : ℚ)), (1, 0)] (by norm_num)
  exact ⟨m, h1, h3⟩

/-- Claim C3: every point of the combined baseline forecast frame — the
reconstructed historical fit rows as well as the future rows — satisfies
`lower ≤ point ≤ upper`, and its interval is at least `0.2` wide (twice
the `0.1` margin floor). -/
theorem baseline_bounds_c3 (m : BaselineModel) (periods : ℕ) (p : ForecastPoint)
    (hp : p ∈ (forecast_with_baseline m periods).1) :
    p.yhat_lower ≤ (p.yhat : ℝ) ∧ (p.yhat : ℝ) ≤ p.yhat_upper ∧
    (0.2 : ℝ) ≤ p.yhat_upper - p.yhat_lower := by
  have hm : (0.1 : ℝ) ≤ margin m := le_max_right _ _
  rw [forecast_with_baseline] at hp
  rcases List.mem_append.mp hp with hp | hp
  · rw [baselineHistoryFit] at hp
    obtain ⟨i, hi, rfl⟩ := List.mem_map.mp hp
    refine ⟨by simp; linarith, by simp; linarith, by simp; linarith⟩
  · rw [baselineFuture] at hp
    obtain ⟨i, hi, rfl⟩ := List.mem_map.mp hp
    refine ⟨by simp; linarith, by simp; linarith, by simp; linarith⟩

/-- Claim C3 witness: the model with zero residual standard deviation has
margin exactly `0.1`; its first reconstructed point instantiates the
bound-ordering theorem. -/
theorem baseline_bounds_c3_witness :
    c3point ∈ (forecast_with_baseline c3model 1).1 ∧
    (c3point.yhat_lower ≤ (c3point.yhat : ℝ) ∧
      (c3point.yhat : ℝ) ≤ c3point.yhat_upper ∧
      (0.2 : ℝ) ≤ c3point.yhat_upper - c3point.yhat_lower) := by
  have hmem : c3point ∈ (forecast_with_baseline c3model 1).1 := by
    rw [forecast_with_baseline]
    refine List.mem_append.mpr (Or.inl ?_)
    rw [baselineHistoryFit]
    refine List.mem_map.mpr ⟨0, ?_, ?_⟩
    · simp [c3model, sortByDs, List.insertionSort]
    · simp [c3point, c3model, sortByDs, List.insertionSort, margin]
  exact ⟨hmem, baseline_bounds_c3 _ _ _ hmem⟩

/-! The trend summarizer. -/

lemma lastN_length {α : Type} (n : ℕ) (l : List α) :
    (lastN n l).length = min n l.length := by
  simp [lastN]
  omega

/-- Claim C6: the trend direction is the thresholded OLS slope of the
point estimates of the last 7 forecast rows (all of them if fewer):
`slope > 0.01` gives `positive`, `slope < -0.01` gives `negative`,
anything else (including fewer than 2 rows) gives `neutral`; and for at
least 2 rows the fitted slope/intercept pair satisfies the least-squares
normal equations, i.e. it is the first-degree polynomial fit. -/
theorem trend_direction_c6 (fc : List ForecastPoint) :
    calculate_trend_direction fc =
      (if fc.length < 2 then "neutral"
       else if 0.01 < polyfitSlope (lastN 7 (fc.map ForecastPoint.yhat)) then "positive"
       else if polyfitSlope (lastN 7 (fc.map ForecastPoint.yhat)) < -0.01 then "negative"
       else "neutral") ∧
    (2 ≤ fc.length →
      (residList (lastN 7 (fc.map ForecastPoint.yhat))
        (polyfitSlope (lastN 7 (fc.map ForecastPoint.yhat)))
        (polyfitIntercept (lastN 7 (fc.map ForecastPoint.yhat)))).sum = 0 ∧
      residWSum (lastN 7 (fc.map ForecastPoint.yhat))
        (polyfitSlope (lastN 7 (fc.map ForecastPoint.yhat)))
        (polyfitIntercept (lastN 7 (fc.map ForecastPoint.yhat))) = 0) := by
  have hlen : (lastN 7 (fc.map ForecastPoint.yhat)).length = min 7 fc.length := by
    rw [lastN_length, List.length_map]
  constructor
  · by_cases h2 : fc.length < 2
    · rw [calculate_trend_direction, if_pos h2, if_pos h2]
    · have hr : ¬ (lastN 7 (fc.map ForecastPoint.yhat)).length < 2 := by
        rw [hlen]; omega
      rw [calculate_trend_direction, if_neg h2, if_neg h2]
      simp only [if_neg hr]
  · intro h2
    exact polyfit_normal_equations _ (by rw [hlen]; omega)

/-- Claim C6 witness: on the slope-`0.05` synthetic forecast the
direction theorem instantiates, and the direction evaluates to
`positive`. -/
theorem trend_direction_c6_witness :
    (calculate_trend_direction c6fc =
      (if c6fc.length < 2 then "neutral"
       else if 0.01 < polyfitSlope (lastN 7 (c6fc.map ForecastPoint.yhat)) then "positive"
       else if polyfitSlope (lastN 7 (c6fc.map ForecastPoint.yhat)) < -0.01 then "negative"
       else "neutral") ∧
      (residList (lastN 7 (c6fc.map ForecastPoint.yhat))
        (polyfitSlope (lastN 7 (c6fc.map ForecastPoint.yhat)))
        (polyfitIntercept (lastN 7 (c6fc.map ForecastPoint.yhat)))).sum = 0) ∧
    calculate_trend_direction c6fc = "positive" := by
  refine ⟨⟨(trend_direction_c6 c6fc).1,
    ((trend_direction_c6 c6fc).2 (by simp [c6fc])).1⟩, ?_⟩
  rw [calculate_trend_direction]
  norm_num [c6fc, lastN, polyfitSlope, polyfitDenom, xySum, xSum, xxSum,
    List.range_succ]

lemma roundHalfEven_abs_sub (x : ℝ) : |((roundHalfEven x : ℤ) : ℝ) - x| ≤ 1 / 2 := by
  rw [roundHalfEven]
  by_cases hf : Int.fract x = 1 / 2
  · have hx : x = (⌊x⌋ : ℝ) + 1 / 2 := by
      have := Int.fract_add_floor x
      rw [hf] at this
      linarith
    set n := ⌊x⌋ with hn
    by_cases he : 2 ∣ n
    · rw [if_pos hf, if_pos he, hx, abs_le]
      constructor <;> linarith
    · rw [if_pos hf, if_neg he, hx, abs_le]
      constructor <;> push_cast <;> linarith
  · rw [if_neg hf, abs_sub_comm]
    exact abs_sub_round x

lemma pyRound3_unit {y : ℝ} (h0 : 0 ≤ y) (h1 : y ≤ 1) :
    0 ≤ pyRound3 y ∧ pyRound3 y ≤ 1 := by
  have hb := roundHalfEven_abs_sub (y * 1000)
  rw [abs_le] at hb
  have hge : (0 : ℤ) ≤ roundHalfEven (y * 1000) := by
    by_contra hneg
    push_neg at hneg
    have h1 : roundHalfEven (y * 1000) ≤ -1 := by omega
    have h2 : ((roundHalfEven (y * 1000) : ℤ) : ℝ) ≤ -1 := by exact_mod_cast h1
    nlinarith [hb.1]
  have hle : roundHalfEven (y * 1000) ≤ 1000 := by
    by_contra hbig
    push_neg at hbig
    have h1 : (1001 : ℤ) ≤ roundHalfEven (y * 1000) := by omega
    have h2 : (1001 : ℝ) ≤ ((roundHalfEven (y * 1000) : ℤ) : ℝ) := by exact_mod_cast h1
    nlinarith [hb.2]
  constructor
  · rw [pyRound3]
    have : (0 : ℝ) ≤ ((roundHalfEven (y * 1000) : ℤ) : ℝ) := by exact_mod_cast hge
    linarith
  · rw [pyRound3]
    have : ((roundHalfEven (y * 1000) : ℤ) : ℝ) ≤ 1000 := by exact_mod_cast hle
    linarith

/-- Claim C7 (amended): for a forecast of at least 2 rows the reported
confidence is `round(clamp(1 - avg_width / 2, 0, 1), 3)` — the clamped
value rounded to the nearest multiple of `0.001`, ties to even — and
always lies in `[0, 1]`. -/
theorem confidence_c7 (fc : List ForecastPoint) (h : 2 ≤ fc.length) :
    calculate_confidence fc =
      pyRound3 (max 0 (min 1 (1 -
        ((lastN 7 fc).map (fun p => p.yhat_upper - p.yhat_lower)).sum /
          ((lastN 7 fc).length : ℝ) / 2))) ∧
    0 ≤ calculate_confidence fc ∧ calculate_confidence fc ≤ 1 := by
  have heq : calculate_confidence fc =
      pyRound3 (max 0 (min 1 (1 -
        ((lastN 7 fc).map (fun p => p.yhat_upper - p.yhat_lower)).sum /
          ((lastN 7 fc).length : ℝ) / 2))) := by
    rw [calculate_confidence, if_neg (by omega)]
  have hmem := pyRound3_unit (y := max 0 (min 1 (1 -
      ((lastN 7 fc).map (fun p => p.yhat_upper - p.yhat_lower)).sum /
        ((lastN 7 fc).length : ℝ) / 2)))
    (le_max_left _ _) (max_le (by norm_num) (min_le_left _ _))
  exact ⟨heq, heq ▸ hmem.1, heq ▸ hmem.2⟩

/-- Claim C7 counterexample: on the two-row frame with widths `1/3` the
clamped value is `5/6 = 0.8333…`, but the code reports `0.833` — the
claim's equation `confidence = clamp(1 - avg_width/2, 0, 1)` fails
because it omits the `round(·, 3)` step. -/
theorem confidence_c7_counterexample :
    calculate_confidence c7fc = 833 / 1000 ∧
    max 0 (min 1 ((1 : ℝ) -
      ((lastN 7 c7fc).map (fun p => p.yhat_upper - p.yhat_lower)).sum /
        ((lastN 7 c7fc).length : ℝ) / 2)) = 5 / 6 ∧
    (833 / 1000 : ℝ) ≠ 5 / 6 := by
  have hlast : lastN 7 c7fc = c7fc := by
    rw [lastN]
    norm_num [c7fc]
  have havg : ((lastN 7 c7fc).map (fun p => p.yhat_upper - p.yhat_lower)).sum /
      ((lastN 7 c7fc).length : ℝ) / 2 = 1 / 6 := by
    rw [hlast]
    norm_num [c7fc]
  have hclamp : max 0 (min 1 ((1 : ℝ) -
      ((lastN 7 c7fc).map (fun p => p.yhat_upper - p.yhat_lower)).sum /
        ((lastN 7 c7fc).length : ℝ) / 2)) = 5 / 6 := by
    rw [havg]
    norm_num
  refine ⟨?_, hclamp, by norm_num⟩
  rw [calculate_confidence, if_neg (by norm_num [c7fc])]
  simp only []
  rw [havg]
  rw [show max 0 (min 1 ((1 : ℝ) - 1 / 6)) = 5 / 6 by norm_num]
  rw [pyRound3, roundHalfEven]
  have hfl : ⌊(5 / 6 : ℝ) * 1000⌋ = 833 := by
    rw [Int.floor_eq_iff]
    norm_num
  have hfr : Int.fract ((5 / 6 : ℝ) * 1000) ≠ 1 / 2 := by
    rw [Int.fract, hfl]
    norm_num
  rw [if_neg hfr, round_eq]
  rw [show (5 / 6 : ℝ) * 1000 + 1 / 2 = 5003 / 6 by norm_num]
  rw [show ⌊(5003 / 6 : ℝ)⌋ = 833 from by rw [Int.floor_eq_iff]; norm_num]
  norm_num

/-- Claim C7 witness (for the amended theorem): the two-row frame has
`2 ≤ length`; its confidence is well-formed and lies in `[0,1]`. -/
theorem confidence_c7_witness :
    2 ≤ c7fc.length ∧ 0 ≤ calculate_confidence c7fc ∧ calculate_confidence c7fc ≤ 1 :=
  ⟨by norm_num [c7fc], (confidence_c7 c7fc (by norm_num [c7fc])).2.1,
    (confidence_c7 c7fc (by norm_num [c7fc])).2.2⟩

/-! Persistence frame lemmas. -/

lemma lookup_map_set {α : Type} (k k' : String) (v : α) (h : k' ≠ k)
    (d : List (String × α)) :
    (d.map (fun p => if p.1 = k then (k, v) else p)).lookup k' = d.lookup k' := by
  induction d with
  | nil => rfl
  | cons p t ih =>
    rw [List.map_cons]
    by_cases hp : p.1 = k
    · rw [if_pos hp, List.lookup_cons, List.lookup_cons, hp]
      rw [beq_eq_false_iff_ne.mpr h]
      exact ih
    · rw [if_neg hp, List.lookup_cons, List.lookup_cons]
      cases hkp : (k' == p.1) with
      | true => rfl
      | false => exact ih

lemma dictSet_lookup_ne {α : Type} (d : List (String × α)) (k k' : String) (v : α)
    (h : k' ≠ k) : (dictSet d k v).lookup k' = d.lookup k' := by
  rw [dictSet]
  by_cases hc : (d.map Prod.fst).contains k
  · rw [if_pos hc]
    exact lookup_map_set k k' v h d
  · rw [if_neg hc, List.lookup_append]
    have hone : List.lookup k' [(k, v)] = none := by
      rw [List.lookup_cons, beq_eq_false_iff_ne.mpr h]
      rfl
    rw [hone]
    cases d.lookup k' <;> rfl

lemma lookup_map_set_self {α : Type} (k : String) (v : α) (d : List (String × α))
    (hc : k ∈ d.map Prod.fst) :
    (d.map (fun p => if p.1 = k then (k, v) else p)).lookup k = some v := by
  induction d with
  | nil => simp at hc
  | cons p t ih =>
    rw [List.map_cons]
    by_cases hp : p.1 = k
    · rw [if_pos hp, List.lookup_cons]
      simp
    · rw [if_neg hp, List.lookup_cons]
      rw [beq_eq_false_iff_ne.mpr (fun he => hp he.symm)]
      refine ih ?_
      rw [List.map_cons] at hc
      rcases List.mem_cons.mp hc with hc' | hc'
      · exact absurd hc'.symm hp
      · exact hc'

lemma lookup_none_of_not_mem {α : Type} (k : String) (d : List (String × α))
    (hmem : k ∉ d.map Prod.fst) : d.lookup k = none := by
  induction d with
  | nil => rfl
  | cons p t ih =>
    rw [List.map_cons, List.mem_cons] at hmem
    push_neg at hmem
    rw [List.lookup_cons, beq_eq_false_iff_ne.mpr hmem.1]
    exact ih hmem.2

lemma dictSet_lookup_self {α : Type} (d : List (String × α)) (k : String) (v : α) :
    (dictSet d k v).lookup k = some v := by
  rw [dictSet]
  by_cases hc : (d.map Prod.fst).contains k
  · rw [if_pos hc]
    exact lookup_map_set_self k v d (by simpa using hc)
  · rw [if_neg hc, List.lookup_append]
    rw [lookup_none_of_not_mem k d (by simpa using hc)]
    simp [List.lookup_cons]

lemma filter_map_set_ne {α : Type} (k : String) (v : α) (d : List (String × α)) :
    (d.map (fun p => if p.1 = k then (k, v) else p)).filter (fun p => p.1 ≠ k) =
      d.filter (fun p => p.1 ≠ k) := by
  induction d with
  | nil => rfl
  | cons p t ih =>
    by_cases hp : p.1 = k <;> simp [hp, List.filter_cons] <;> simpa using ih

lemma dictSet_filter_ne {α : Type} (d : List (String × α)) (k : String) (v : α) :
    (dictSet d k v).filter (fun p => p.1 ≠ k) = d.filter (fun p => p.1 ≠ k) := by
  rw [dictSet]
  by_cases hc : (d.map Prod.fst).contains k
  · rw [if_pos hc]
    exact filter_map_set_ne k v d
  · rw [if_neg hc, List.filter_append]
    simp

/-- Claim C9: `save_prediction_results` only stamps `generated_at` on the
in-memory results: every other key keeps its binding (both its lookup and
the whole `generated_at`-free sublist are unchanged), the returned
dictionary does not depend on whether the sidecar write succeeds, and the
`generated_at` binding is the fresh timestamp. -/
theorem save_frame_c9 {α : Type} (results : List (String × α)) (t : α)
    (w₁ w₂ : Bool) (k : String) (hk : k ≠ "generated_at") :
    (save_prediction_results results t w₁).lookup k = results.lookup k ∧
    (save_prediction_results results t w₁).filter (fun p => p.1 ≠ "generated_at") =
      results.filter (fun p => p.1 ≠ "generated_at") ∧
    save_prediction_results results t w₁ = save_prediction_results results t w₂ ∧
    (save_prediction_results results t w₁).lookup "generated_at" = some t :=
  ⟨dictSet_lookup_ne results "generated_at" k t hk,
    dictSet_filter_ne results "generated_at" t,
    rfl,
    dictSet_lookup_self results "generated_at" t⟩

/-- Claim C9 witness: a concrete three-key results dictionary; saving with
a failing write keeps `data_points` bound to `2` and stamps
`generated_at`. -/
theorem save_frame_c9_witness :
    ("data_points" ≠ "generated_at") ∧
    (save_prediction_results [("data_points", (2 : ℚ)), ("confidence", 1)]
        (99 : ℚ) false).lookup "data_points" =
      [(("data_points" : String), (2 : ℚ)), ("confidence", 1)].lookup "data_points" ∧
    (save_prediction_results [("data_points", (2 : ℚ)), ("confidence", 1)]
        (99 : ℚ) false).lookup "generated_at" = some 99 :=
  ⟨by decide,
    (save_frame_c9 [("data_points", (2 : ℚ)), ("confidence", 1)] 99 false true
      "data_points" (by decide)).1,
    (save_frame_c9 [("data_points", (2 : ℚ)), ("confidence", 1)] 99 false true
      "data_points" (by decide)).2.2.2⟩

/-! Orchestration lemmas for the error short-circuit. -/

lemma prepare_data_isEmpty_false {obs : List NewsRecord} (h : obs ≠ []) :
    (prepare_data obs).isEmpty = false := by
  rw [prepare_data, if_neg (by simpa using h)]
  rw [List.isEmpty_eq_false_iff_exists_mem]
  have hne := gridDays_ne_nil (minDay (obsDays obs)) (maxDay (obsDays obs))
  cases hg : gridDays (minDay (obsDays obs)) (maxDay (obsDays obs)) with
  | nil => exact absurd hg hne
  | cons d t => exact ⟨(d, interpValue obs d), by simp⟩

lemma nuniqueDs_le_length (df : List (ℤ × ℚ)) : nuniqueDs df ≤ df.length := by
  calc nuniqueDs df ≤ (df.map Prod.fst).length :=
        (df.map Prod.fst).dedup_sublist.length_le
    _ = df.length := List.length_map _ _

lemma build_baseline_some {df : List (ℤ × ℚ)} (h : 2 ≤ df.length) :
    ∃ m : BaselineModel, build_baseline df = some m := by
  have hnot : ¬ (sortByDs df).length < 2 := by rw [sortByDs_length]; omega
  rw [build_baseline]
  simp only [if_neg hnot]
  exact ⟨_, rfl⟩

/-- Claim C1: the analysis returns the error dictionary exactly when the
input is insufficient.  Zero observations give
`{'error': ..., 'data_points': 0}` with no fit attempted and no baseline
used; a non-empty input whose aggregated series has fewer than 2 distinct
dates gives `{'error': ..., 'data_points': len(df)}`, again before any
fit or baseline construction; and the result is an error if and only if
one of those two conditions holds (the functions are total, so no
exception reaches the caller). -/
theorem error_shortcircuit_c1 (oracle : Option (List ForecastPoint))
    (obs : List NewsRecord) (periods : ℕ) :
    (obs = [] →
      analyzeAux oracle obs periods =
        ⟨.failure "数据不足，无法进行趋势预测" 0, false, false⟩) ∧
    (obs ≠ [] → nuniqueDs (prepare_data obs) < 2 →
      analyzeAux oracle obs periods =
        ⟨.failure "模型训练失败" (prepare_data obs).length, false, false⟩) ∧
    ((analyzeAux oracle obs periods).result.isFailure = true ↔
      obs = [] ∨ nuniqueDs (prepare_data obs) < 2) := by
  refine ⟨?_, ?_, ?_⟩
  · rintro rfl
    rfl
  · intro hne hnu
    have hdf : (prepare_data obs).isEmpty = false := prepare_data_isEmpty_false hne
    rw [analyzeAux]
    simp only [hdf, Bool.false_eq_true, if_false]
    rw [train_model.eq_def, if_pos (Or.inr hnu)]
  · constructor
    · intro hf
      by_contra hcon
      push_neg at hcon
      obtain ⟨hne, hnu⟩ := hcon
      have hdf : (prepare_data obs).isEmpty = false := prepare_data_isEmpty_false hne
      have hguard : ¬ ((prepare_data obs).isEmpty = true ∨
          nuniqueDs (prepare_data obs) < 2) := by
        rintro (hg | hg)
        · rw [hdf] at hg; exact Bool.false_ne_true hg
        · omega
      have hlen2 : 2 ≤ (prepare_data obs).length :=
        le_trans hnu (nuniqueDs_le_length (prepare_data obs))
      have hnu' : ¬ nuniqueDs (prepare_data obs) < 2 := by omega
      cases oracle with
      | some fc =>
        rw [analyzeAux] at hf
        simp [hdf, train_model, hnu', AnalyzeResult.isFailure] at hf
      | none =>
        obtain ⟨m, hm⟩ := build_baseline_some hlen2
        rw [analyzeAux] at hf
        simp [hdf, train_model, hnu', hm, AnalyzeResult.isFailure] at hf
    · rintro (rfl | hnu)
      · rfl
      · by_cases hne : obs = []
        · subst hne; rfl
        · have hdf : (prepare_data obs).isEmpty = false := prepare_data_isEmpty_false hne
          rw [analyzeAux]
          simp only [hdf, Bool.false_eq_true, if_false]
          rw [train_model.eq_def, if_pos (Or.inr hnu)]
          rfl

/-- Claim C1 witness: the empty corpus and the single-day corpus; the
single-day series has length 1, so its error reports `data_points = 1`. -/
theorem error_shortcircuit_c1_witness :
    analyzeAux none [] 5 =
      ⟨.failure "数据不足，无法进行趋势预测" 0, false, false⟩ ∧
    analyzeAux none [⟨3, 0, some 1⟩] 5 =
      ⟨.failure "模型训练失败" 1, false, false⟩ ∧
    ((analyzeAux none [⟨3, 0, some 1⟩] 5).result.isFailure = true ↔
      ([⟨3, 0, some 1⟩] : List NewsRecord) = [] ∨
        nuniqueDs (prepare_data [⟨3, 0, some 1⟩]) < 2) := by
  have heval : prepare_data [(⟨3, 0, some 1⟩ : NewsRecord)] = [(3, 1)] := by
    simp only [prepare_data, obsDays, minDay, maxDay, List.map]
    norm_num [gridDays, List.range_succ, interpValue, obsDays, dayMean,
      dayScores, prevObsDay, nextObsDay, minDay, maxDay, score, List.filter]
  have hnu : nuniqueDs (prepare_data [(⟨3, 0, some 1⟩ : NewsRecord)]) < 2 := by
    rw [heval]
    norm_num [nuniqueDs]
  refine ⟨(error_shortcircuit_c1 none [] 5).1 rfl, ?_,
    (error_shortcircuit_c1 none [⟨3, 0, some 1⟩] 5).2.2⟩
  have h := (error_shortcircuit_c1 none [⟨3, 0, some 1⟩] 5).2.1 (by simp) hnu
  rw [h, heval]
  simp

lemma c8_prepare : prepare_data c8obs = [(1, 3), (2, 3)] := by
  simp only [c8obs, prepare_data, obsDays, minDay, maxDay, List.map]
  norm_num [gridDays, List.range_succ, interpValue, obsDays, dayMean,
    dayScores, prevObsDay, nextObsDay, minDay, maxDay, score, List.filter]

lemma c8_sort : sortByDs [((1 : ℤ), (3 : ℚ)), (2, 3)] = [(1, 3), (2, 3)] := by
  norm_num [sortByDs, List.insertionSort, List.orderedInsert]

lemma c8_build : build_baseline [((1 : ℤ), (3 : ℚ)), (2, 3)] = some c8model := by
  rw [build_baseline]
  simp only [c8_sort]
  norm_num [c8model, polyfitIntercept, polyfitSlope, polyfitDenom, xySum, xSum,
    xxSum, residList, npStd, listMean, List.range_succ, Real.sqrt_eq_zero']

lemma c8_future_len : (baselineFuture c8model 1).length = 1 := by
  simp [baselineFuture]

lemma c8_hist_len : (baselineHistoryFit c8model).length = 2 := by
  simp [baselineHistoryFit, sortByDs_length, c8model]

/-- Claim C8 counterexample: on the two-day corpus the baseline builds
the combined frame with 2 historical fit rows and 1 future row, but the
result's reported `predictions` list is exactly the future row — the
claim that the reported forecast sequence includes the reconstructed
historical fit points followed by the future points fails (1 row ≠ 3
rows). -/
theorem reported_forecast_c8_counterexample :
    build_baseline (prepare_data c8obs) = some c8model ∧
    resultPredictions (analyze_market_sentiment_trend none c8obs 1) =
      some (baselineFuture c8model 1) ∧
    (baselineFuture c8model 1).length = 1 ∧
    (baselineHistoryFit c8model).length = 2 ∧
    resultPredictions (analyze_market_sentiment_trend none c8obs 1) ≠
      some (baselineHistoryFit c8model ++ baselineFuture c8model 1) := by
  have hbuild : build_baseline (prepare_data c8obs) = some c8model := by
    rw [c8_prepare]; exact c8_build
  have hpred : resultPredictions (analyze_market_sentiment_trend none c8obs 1) =
      some (baselineFuture c8model 1) := by
    rw [analyze_market_sentiment_trend, analyzeAux]
    norm_num [c8_prepare, train_model, nuniqueDs, c8_build, predict_trend,
      resultPredictions, forecast_with_baseline]
  refine ⟨hbuild, hpred, c8_future_len, c8_hist_len, ?_⟩
  rw [hpred]
  intro hcon
  have h2 := Option.some.inj hcon
  have h3 := congrArg List.length h2
  rw [List.length_append, c8_future_len, c8_hist_len] at h3
  omega

/-- Claim C8 (amended): the baseline's combined frame is the
reconstructed historical fit rows followed by the future rows, all in the
same ForecastPoint shape, and that combined frame is what trend direction
and confidence are computed from; the result is tagged
`model_type = "baseline"`; but the `predictions` reported in the result
are only the `periods` future rows (each dated strictly after every
historical date) — the historical fit rows are not part of the reported
sequence. -/
theorem reported_forecast_c8 (m : BaselineModel) (periods : ℕ) :
    (forecast_with_baseline m periods).1 =
      baselineHistoryFit m ++ (forecast_with_baseline m periods).2 ∧
    (forecast_with_baseline m periods).2.length = periods ∧
    (baselineHistoryFit m).length = m.history.length ∧
    (∀ p ∈ (forecast_with_baseline m periods).2, ∀ q ∈ m.history, q.1 < p.ds) ∧
    predict_trend (.baseline m) periods =
      { predictions := (forecast_with_baseline m (if periods = 0 then 30 else periods)).2,
        trend_direction := calculate_trend_direction
          (forecast_with_baseline m (if periods = 0 then 30 else periods)).1,
        confidence := calculate_confidence
          (forecast_with_baseline m (if periods = 0 then 30 else periods)).1,
        forecast_periods := if periods = 0 then 30 else periods,
        model_type := "baseline" } := by
  refine ⟨rfl, by simp [forecast_with_baseline, baselineFuture],
    by simp [baselineHistoryFit, sortByDs_length], ?_, rfl⟩
  intro p hp q hq
  have hqle : q.1 ≤ maxDay ((sortByDs m.history).map Prod.fst) := by
    refine le_maxDay _ ?_
    exact ((sortByDs_perm m.history).map Prod.fst).symm.mem_iff.mp
      (List.mem_map_of_mem Prod.fst hq)
  rw [forecast_with_baseline] at hp
  simp only [baselineFuture] at hp
  obtain ⟨step, hstep, rfl⟩ := List.mem_map.mp hp
  simp only []
  omega

/-- Claim C8 witness (for the amended theorem): on the concrete two-day
model the decomposition holds, the reported rows are the single future
row, and the future row postdates the historical row `(0, 0)`. -/
theorem reported_forecast_c8_witness :
    (forecast_with_baseline c8model 1).1 =
      baselineHistoryFit c8model ++ (forecast_with_baseline c8model 1).2 ∧
    (forecast_with_baseline c8model 1).2.length = 1 ∧
    (predict_trend (.baseline c8model) 1).model_type = "baseline" ∧
    (∀ p ∈ (forecast_with_baseline c8model 1).2, ∀ q ∈ c8model.history, q.1 < p.ds) :=
  ⟨(reported_forecast_c8 c8model 1).1,
    (reported_forecast_c8 c8model 1).2.1,
    by rw [(reported_forecast_c8 c8model 1).2.2.2.2],
    (reported_forecast_c8 c8model 1).2.2.2.1⟩

end MarketPulse
